import Mathlib

/-!
Shallow embedding of the core modules of the todo application — `js/storage.js`,
`js/todoManager.js` and `js/uiRenderer.js` — together with theorems checking
the natural-language specification against this code.

Modelling conventions:
* The module-level mutable `todos` array of `todoManager.js` becomes explicit
  state passing: every operation takes the current list and returns the new
  list inside an `OpResult`.
* `crypto.randomUUID()` / `Date.now()` are environment inputs, passed as the
  `newId` / `now` parameters.
* `localStorage.setItem` may throw (e.g. `QuotaExceededError`); whether the
  write succeeds is an environment input, the `saveOk : Bool` parameter.
  A thrown error is an `Except.error` value.
* Each operation records the argument `save` was invoked with (if it was
  invoked at all) in the `savedArg` field, so "calls / does not call the
  persistence layer" is an inspectable fact.
* JavaScript built-ins (`String.prototype.trim`, `JSON.parse`,
  `Array.prototype.sort`) are modelled by executable Lean functions with the
  same observable behaviour on the values this program feeds them: `jsTrim`
  trims leading/trailing whitespace, `jsonParse` is a recursive-descent JSON
  reader (integer numerals, no escape sequences — the subset relevant to the
  stored data), and a comparator sort is modelled by the stable Mathlib
  `List.insertionSort`, which has exactly the sorted-stable-permutation
  contract ECMAScript gives `Array.prototype.sort`.
-/

namespace TodoApp

/-- Model of the JavaScript built-in `String.prototype.trim` used by
`addTodo`: removes leading and trailing whitespace characters. -/
def jsTrim (s : String) : String :=
  ⟨((s.data.dropWhile Char.isWhitespace).reverse.dropWhile Char.isWhitespace).reverse⟩

/-- The `Todo` record of `todoManager.js`:
`{ id, text, completed, createdAt }` with `createdAt` a millisecond
timestamp. -/
structure Todo where
  id : String
  text : String
  completed : Bool
  createdAt : Int
deriving DecidableEq, Repr

/-- The comparator `(a, b) => b.createdAt - a.createdAt` of `getSortedTodos`:
`a` may come before `b` exactly when the comparator is `≤ 0`, i.e. when
`b.createdAt ≤ a.createdAt` (descending `createdAt`). -/
def byCreatedAtDesc (a b : Todo) : Prop :=
  b.createdAt ≤ a.createdAt

instance : DecidableRel byCreatedAtDesc :=
  fun a b => inferInstanceAs (Decidable (b.createdAt ≤ a.createdAt))

instance : IsTotal Todo byCreatedAtDesc :=
  ⟨fun a b => Int.le_total b.createdAt a.createdAt⟩

instance : IsTrans Todo byCreatedAtDesc :=
  ⟨fun _ _ _ hab hbc => Int.le_trans hbc hab⟩

/-- `getSortedTodos` from `todoManager.js`: filter the incomplete todos and
sort them newest-first, filter the completed todos and sort them
newest-first, and concatenate (incomplete first). The two `filter` calls
build fresh arrays, so the internal `todos` array is never mutated. -/
def getSortedTodos (todos : List Todo) : List Todo :=
  let incomplete := List.insertionSort byCreatedAtDesc (todos.filter fun t => !t.completed)
  let complete := List.insertionSort byCreatedAtDesc (todos.filter fun t => t.completed)
  incomplete ++ complete

/-- The two error kinds that can escape a `todoManager.js` operation:
the `ValidationError` it throws itself, and a storage write failure
(e.g. `QuotaExceededError`) re-thrown out of `save` in `storage.js`. -/
inductive StoreError where
  | validation : StoreError
  | quotaExceeded : StoreError
deriving DecidableEq, Repr

/-- `save` from `storage.js`: serializes and writes the list with a single
`localStorage.setItem` call and intentionally does not swallow errors.
Whether the underlying write succeeds is the environment input `saveOk`. -/
def save (saveOk : Bool) : Except StoreError Unit :=
  if saveOk then .ok () else .error .quotaExceeded

/-- Observable outcome of one `todoManager.js` operation:
the module-level `todos` array after the call, the argument `save` was
invoked with (`none` when `save` was never reached), and the value returned
to the caller or the error thrown at them. -/
structure OpResult where
  todos : List Todo
  savedArg : Option (List Todo)
  ret : Except StoreError (List Todo)
deriving Repr

/-- The record literal built inside `addTodo`:
`{ id: generateId(), text: trimmed, completed: false, createdAt: Date.now() }`. -/
def newRecord (text newId : String) (now : Int) : Todo :=
  { id := newId, text := jsTrim text, completed := false, createdAt := now }

/-- `addTodo` from `todoManager.js`: trims the input; throws
`ValidationError` (before touching state or storage) if the result is empty;
otherwise prepends the new record, calls `save` on the updated list — a save
error propagates — and returns the sorted list. -/
def addTodo (st : List Todo) (text newId : String) (now : Int) (saveOk : Bool) : OpResult :=
  let trimmed := jsTrim text
  if trimmed = "" then
    { todos := st, savedArg := none, ret := .error .validation }
  else
    let newTodo := newRecord text newId now
    let todos' := newTodo :: st
    { todos := todos'
      savedArg := some todos'
      ret :=
        match save saveOk with
        | .ok _ => .ok (getSortedTodos todos')
        | .error e => .error e }

/-- `deleteTodo` from `todoManager.js`:
`todos = todos.filter((t) => t.id !== id); save(todos); return getSortedTodos();`.
Note that `save` is called unconditionally, found or not. -/
def deleteTodo (st : List Todo) (id : String) (saveOk : Bool) : OpResult :=
  let todos' := st.filter fun t => t.id != id
  { todos := todos'
    savedArg := some todos'
    ret :=
      match save saveOk with
      | .ok _ => .ok (getSortedTodos todos')
      | .error e => .error e }

/-- `toggleTodo` from `todoManager.js`:
`todos = todos.map((t) => t.id === id ? { ...t, completed: !t.completed } : t)`,
then `save(todos)` (unconditionally) and `return getSortedTodos()`. -/
def toggleTodo (st : List Todo) (id : String) (saveOk : Bool) : OpResult :=
  let todos' := st.map fun t =>
    if t.id = id then { t with completed := !t.completed } else t
  { todos := todos'
    savedArg := some todos'
    ret :=
      match save saveOk with
      | .ok _ => .ok (getSortedTodos todos')
      | .error e => .error e }

/-- The observable content of one `<li>` built by `buildTodoElement` in
`uiRenderer.js`: checkbox state and `data-id`, span text and whether the
`completed-text` class is applied, and the `data-id` /
`data-action` of the delete button. -/
structure TodoElement where
  checkboxChecked : Bool
  checkboxDataId : String
  textContent : String
  completedTextClass : Bool
  deleteDataId : String
  deleteDataAction : String
deriving DecidableEq, Repr

/-- `buildTodoElement` from `uiRenderer.js`. -/
def buildTodoElement (todo : Todo) : TodoElement :=
  { checkboxChecked := todo.completed
    checkboxDataId := todo.id
    textContent := todo.text
    completedTextClass := todo.completed
    deleteDataId := todo.id
    deleteDataAction := "delete" }

/-- `renderTodos` from `uiRenderer.js`: clears `#todo-list` and appends one
`buildTodoElement(todo)` node per todo, in the order given. The value is the
resulting list of children of `#todo-list`. -/
def renderTodos (todos : List Todo) : List TodoElement :=
  todos.map buildTodoElement

/-- JSON values, the possible results of the `JSON.parse` built-in. -/
inductive Json where
  | null : Json
  | bool (b : Bool) : Json
  | num (n : Int) : Json
  | str (s : String) : Json
  | arr (elems : List Json) : Json
  | obj (fields : List (String × Json)) : Json
deriving Repr

/-- Whitespace characters JSON treats as insignificant. -/
def isJsonWs (c : Char) : Bool :=
  c = ' ' || c = '\t' || c = '\n' || c = '\r'

/-- Drop insignificant leading whitespace. -/
def skipWs (cs : List Char) : List Char :=
  cs.dropWhile isJsonWs

/-- Read the body of a JSON string up to the closing quote. -/
def parseStringBody : List Char → Option (String × List Char)
  | [] => none
  | c :: cs =>
    if c = '"' then some ("", cs)
    else
      match parseStringBody cs with
      | some (s, rest) => some (⟨c :: s.data⟩, rest)
      | none => none

/-- Decimal value of a digit list. -/
def digitsToNat (ds : List Char) : Nat :=
  ds.foldl (fun acc c => 10 * acc + (c.toNat - 48)) 0

/-- Read an (integer) JSON numeral. -/
def parseNumber (cs : List Char) : Option (Json × List Char) :=
  match cs with
  | '-' :: rest =>
    let ds := rest.takeWhile Char.isDigit
    if ds.isEmpty then none
    else some (.num (-(digitsToNat ds : Int)), rest.dropWhile Char.isDigit)
  | _ =>
    let ds := cs.takeWhile Char.isDigit
    if ds.isEmpty then none
    else some (.num (digitsToNat ds), cs.dropWhile Char.isDigit)

mutual

/-- Read one JSON value (fuelled recursive descent; the fuel only bounds
nesting and is in surplus at the call site in `jsonParse`). -/
def parseVal : Nat → List Char → Option (Json × List Char)
  | 0, _ => none
  | fuel + 1, cs =>
    match skipWs cs with
    | 'n' :: 'u' :: 'l' :: 'l' :: rest => some (.null, rest)
    | 't' :: 'r' :: 'u' :: 'e' :: rest => some (.bool true, rest)
    | 'f' :: 'a' :: 'l' :: 's' :: 'e' :: rest => some (.bool false, rest)
    | '"' :: rest =>
      (match parseStringBody rest with
       | some (s, rest') => some (.str s, rest')
       | none => none)
    | '[' :: rest =>
      (match skipWs rest with
       | ']' :: rest' => some (.arr [], rest')
       | _ =>
         match parseElems fuel rest with
         | some (es, rest') => some (.arr es, rest')
         | none => none)
    | '{' :: rest =>
      (match skipWs rest with
       | '}' :: rest' => some (.obj [], rest')
       | _ =>
         match parseFields fuel rest with
         | some (fs, rest') => some (.obj fs, rest')
         | none => none)
    | cs' => parseNumber cs'

/-- Read the comma-separated elements of a non-empty JSON array, up to and
including the closing bracket. -/
def parseElems : Nat → List Char → Option (List Json × List Char)
  | 0, _ => none
  | fuel + 1, cs =>
    match parseVal fuel cs with
    | none => none
    | some (v, rest) =>
      match skipWs rest with
      | ',' :: rest' =>
        (match parseElems fuel rest' with
         | some (vs, r) => some (v :: vs, r)
         | none => none)
      | ']' :: rest' => some ([v], rest')
      | _ => none

/-- Read the members of a non-empty JSON object, up to and including the
closing brace. -/
def parseFields : Nat → List Char → Option (List (String × Json) × List Char)
  | 0, _ => none
  | fuel + 1, cs =>
    match skipWs cs with
    | '"' :: rest =>
      (match parseStringBody rest with
       | none => none
       | some (k, rest1) =>
         match skipWs rest1 with
         | ':' :: rest2 =>
           (match parseVal fuel rest2 with
            | none => none
            | some (v, rest3) =>
              match skipWs rest3 with
              | ',' :: rest4 =>
                (match parseFields fuel rest4 with
                 | some (fs, r) => some ((k, v) :: fs, r)
                 | none => none)
              | '}' :: rest4 => some ([(k, v)], rest4)
              | _ => none)
         | _ => none)
    | _ => none

end

/-- Model of the `JSON.parse` built-in: `none` is a thrown `SyntaxError`,
`some v` a successful parse of the whole input. -/
def jsonParse (s : String) : Option Json :=
  match parseVal (s.length + 1) s.data with
  | some (v, rest) => if (skipWs rest).isEmpty then some v else none
  | none => none

/-- Observable outcome of `load` from `storage.js`: the collection it
returns (the parsed array is returned as-is, unvalidated, so elements are
raw JSON values) and whether the corrupt-data `console.warn` fired. `load`
is total — it never throws. -/
structure LoadResult where
  value : List Json
  warned : Bool
deriving Repr

/-- `load` from `storage.js`: `localStorage.getItem` returning `null` (the
key is absent, `raw = none`) gives `[]`; a `JSON.parse` failure is caught,
warned about, and gives `[]`; a parsed non-array gives `[]` silently; a
parsed array is returned as-is. -/
def load (raw : Option String) : LoadResult :=
  match raw with
  | none => { value := [], warned := false }
  | some s =>
    match jsonParse s with
    | none => { value := [], warned := true }
    | some (Json.arr xs) => { value := xs, warned := false }
    | some _ => { value := [], warned := false }

/-- The display order `getSortedTodos` establishes: an incomplete record may
precede any completed one, and records with equal `completed` flags must
have non-increasing `createdAt`. -/
def displayLe (a b : Todo) : Prop :=
  (a.completed = false ∧ b.completed = true) ∨
    (a.completed = b.completed ∧ b.createdAt ≤ a.createdAt)

/-- Sample record: a completed todo created at time 1. -/
def sampleDone : Todo :=
  { id := "a", text := "Buy milk", completed := true, createdAt := 1 }

/-- Sample record: an incomplete todo created at time 2. -/
def samplePending : Todo :=
  { id := "b", text := "Walk dog", completed := false, createdAt := 2 }

/-- Sample record: an incomplete todo created at time 3. -/
def sampleLater : Todo :=
  { id := "c", text := "Water plants", completed := false, createdAt := 3 }

/-! Helper lemmas shared by several claims. -/

/-- Every element of the incomplete partition is incomplete. -/
theorem completed_false_of_mem_incomplete {st : List Todo} {t : Todo}
    (h : t ∈ List.insertionSort byCreatedAtDesc (st.filter fun t => !t.completed)) :
    t.completed = false := by
  have hm := (List.mem_filter.1 ((List.mem_insertionSort byCreatedAtDesc).1 h)).2
  simpa using hm

/-- Every element of the complete partition is completed. -/
theorem completed_true_of_mem_complete {st : List Todo} {t : Todo}
    (h : t ∈ List.insertionSort byCreatedAtDesc (st.filter fun t => t.completed)) :
    t.completed = true :=
  (List.mem_filter.1 ((List.mem_insertionSort byCreatedAtDesc).1 h)).2

/-- The output of `getSortedTodos` is sorted for the display order. -/
theorem sorted_display (st : List Todo) :
    List.Sorted displayLe (getSortedTodos st) := by
  unfold getSortedTodos
  rw [List.Sorted, List.pairwise_append]
  refine ⟨?_, ?_, ?_⟩
  · refine (List.sorted_insertionSort byCreatedAtDesc _).imp_of_mem ?_
    intro a b ha hb hr
    exact Or.inr ⟨(completed_false_of_mem_incomplete ha).trans
      (completed_false_of_mem_incomplete hb).symm, hr⟩
  · refine (List.sorted_insertionSort byCreatedAtDesc _).imp_of_mem ?_
    intro a b ha hb hr
    exact Or.inr ⟨(completed_true_of_mem_complete ha).trans
      (completed_true_of_mem_complete hb).symm, hr⟩
  · intro a ha b hb
    exact Or.inl ⟨completed_false_of_mem_incomplete ha, completed_true_of_mem_complete hb⟩

/-- The output of `getSortedTodos` is a permutation of the input. -/
theorem perm_getSortedTodos (st : List Todo) :
    (getSortedTodos st).Perm st := by
  unfold getSortedTodos
  refine ((List.perm_insertionSort _ _).append (List.perm_insertionSort _ _)).trans ?_
  exact List.perm_append_comm.trans (List.filter_append_perm (fun t => t.completed) st)

/-! Theorems for the claims. -/

/-- C1: in the view produced by `getSortedTodos`, every incomplete record
precedes every completed one (equivalently, once a completed record appears
all later ones are completed), and any two records with the same `completed`
flag have non-increasing `createdAt`. -/
theorem sort_invariant (st : List Todo) (i j : Nat)
    (hi : i < (getSortedTodos st).length) (hj : j < (getSortedTodos st).length)
    (hij : i < j) :
    (((getSortedTodos st).get ⟨i, hi⟩).completed = true →
      ((getSortedTodos st).get ⟨j, hj⟩).completed = true) ∧
    (((getSortedTodos st).get ⟨i, hi⟩).completed = ((getSortedTodos st).get ⟨j, hj⟩).completed →
      ((getSortedTodos st).get ⟨j, hj⟩).createdAt ≤ ((getSortedTodos st).get ⟨i, hi⟩).createdAt) := by
  have h := (sorted_display st).rel_get_of_lt (a := ⟨i, hi⟩) (b := ⟨j, hj⟩) (Fin.mk_lt_mk.2 hij)
  constructor
  · intro hc
    rcases h with ⟨h1, _⟩ | ⟨h1, _⟩
    · rw [hc] at h1
      exact absurd h1.symm Bool.false_ne_true
    · rw [← h1, hc]
  · intro hc
    rcases h with ⟨h1, h2⟩ | ⟨_, h2⟩
    · exact absurd (h1.symm.trans (hc.trans h2)) Bool.false_ne_true
    · exact h2

/-- C1 witness: concrete instance on a two-element collection. -/
theorem sort_invariant_witness :
    (((getSortedTodos [sampleDone, samplePending]).get ⟨0, by decide⟩).completed = true →
      ((getSortedTodos [sampleDone, samplePending]).get ⟨1, by decide⟩).completed = true) ∧
    (((getSortedTodos [sampleDone, samplePending]).get ⟨0, by decide⟩).completed =
        ((getSortedTodos [sampleDone, samplePending]).get ⟨1, by decide⟩).completed →
      ((getSortedTodos [sampleDone, samplePending]).get ⟨1, by decide⟩).createdAt ≤
        ((getSortedTodos [sampleDone, samplePending]).get ⟨0, by decide⟩).createdAt) :=
  sort_invariant [sampleDone, samplePending] 0 1 (by decide) (by decide) (by decide)

/-- C7 counterexample: on the collection `[sampleDone, samplePending]`
(a completed record inserted before an incomplete one) the view returned by
`getSortedTodos` — the only read operation of the store — is not the collection
in insertion order: the sort reorders it. -/
theorem sorted_view_not_insertion_order_counterexample :
    getSortedTodos [sampleDone, samplePending] ≠ [sampleDone, samplePending] := by
  decide

/-- C7 (amended): the read operation of the store, `getSortedTodos`, returns a
freshly built copy holding exactly the records of the collection (a
permutation of it), ordered by the display order — incomplete before
complete, `createdAt` non-increasing within a partition — rather than
insertion order. -/
theorem sorted_view_spec (st : List Todo) :
    (getSortedTodos st).Perm st ∧ List.Sorted displayLe (getSortedTodos st) :=
  ⟨perm_getSortedTodos st, sorted_display st⟩

/-- C9: the view returned by `getSortedTodos` is a permutation of the
collection — same length and same multiset of records, none dropped or
duplicated — and the collection itself is left unchanged (the function is
a pure read of the state). -/
theorem getSortedTodos_permutation (st : List Todo) :
    (getSortedTodos st).Perm st ∧
    (getSortedTodos st).length = st.length ∧
    ∀ t : Todo, (getSortedTodos st).count t = st.count t :=
  ⟨perm_getSortedTodos st, (perm_getSortedTodos st).length_eq,
    fun t => (perm_getSortedTodos st).count_eq t⟩

/-- C2 counterexample: `addTodo` does not return the new record — it returns
the updated sorted list. Starting from a collection that already holds
`sampleDone` and adding "Walk dog", the value returned to the caller is the
whole two-element sorted view (which has an element besides the new record),
not the new record. -/
theorem addTodo_returns_list_counterexample :
    (addTodo [sampleDone] "Walk dog" "b" 2 true).ret =
      Except.ok [newRecord "Walk dog" "b" 2, sampleDone] ∧
    (newRecord "Walk dog" "b" 2 ≠ sampleDone) ∧
    ([newRecord "Walk dog" "b" 2, sampleDone].length = 2) := by
  refine ⟨rfl, by decide, rfl⟩

/-- C2 (amended): for non-empty trimmed text and a fresh id, `addTodo`
prepends a record with the given id, the trimmed text, `completed = false`
and `createdAt` = the current time — growing the collection by exactly 1
and keeping ids unique — calls `save` with the updated collection, and
returns the updated sorted list. -/
theorem addTodo_spec (st : List Todo) (text newId : String) (now : Int)
    (h : jsTrim text ≠ "") (hfresh : newId ∉ st.map Todo.id) :
    (addTodo st text newId now true).todos = newRecord text newId now :: st ∧
    (addTodo st text newId now true).todos.length = st.length + 1 ∧
    (newRecord text newId now).text = jsTrim text ∧
    (newRecord text newId now).completed = false ∧
    (newRecord text newId now).createdAt = now ∧
    (newRecord text newId now).id = newId ∧
    (addTodo st text newId now true).savedArg = some (newRecord text newId now :: st) ∧
    (addTodo st text newId now true).ret =
      Except.ok (getSortedTodos (newRecord text newId now :: st)) ∧
    ((st.map Todo.id).Nodup → ((addTodo st text newId now true).todos.map Todo.id).Nodup) := by
  have hres : addTodo st text newId now true =
      { todos := newRecord text newId now :: st
        savedArg := some (newRecord text newId now :: st)
        ret := Except.ok (getSortedTodos (newRecord text newId now :: st)) } := by
    simp [addTodo, h, save]
  refine ⟨by rw [hres], by rw [hres, List.length_cons], rfl, rfl, rfl, rfl,
    by rw [hres], by rw [hres], ?_⟩
  intro hnd
  rw [hres]
  exact List.nodup_cons.2 ⟨hfresh, hnd⟩

/-- C2 witness: adding "  Walk dog  " with fresh id "b" at time 2 to a
one-element collection. -/
theorem addTodo_spec_witness :
    jsTrim "  Walk dog  " ≠ "" ∧
    "b" ∉ ([sampleDone].map Todo.id) ∧
    (addTodo [sampleDone] "  Walk dog  " "b" 2 true).todos =
      newRecord "  Walk dog  " "b" 2 :: [sampleDone] ∧
    (addTodo [sampleDone] "  Walk dog  " "b" 2 true).todos.length = 2 :=
  ⟨by decide, by decide,
    (addTodo_spec [sampleDone] "  Walk dog  " "b" 2 (by decide) (by decide)).1,
    (addTodo_spec [sampleDone] "  Walk dog  " "b" 2 (by decide) (by decide)).2.1⟩

/-- C3 counterexample: toggling or removing an id that is not in the
collection leaves the collection unchanged, but `save` is still called
(with the unchanged collection) — the claim sentence "no persistence call is made"
fails on the code, which calls `save` unconditionally. -/
theorem notFound_still_saves_counterexample :
    (toggleTodo [sampleDone] "missing" true).todos = [sampleDone] ∧
    (toggleTodo [sampleDone] "missing" true).savedArg ≠ none ∧
    (deleteTodo [sampleDone] "missing" true).todos = [sampleDone] ∧
    (deleteTodo [sampleDone] "missing" true).savedArg ≠ none := by
  decide

/-- C3 (amended): for an id not present in the collection, `toggleTodo` and
`deleteTodo` are silent no-ops on the collection — no error is raised and
the collection is unchanged — but each still calls `save`, passing the
unchanged collection. -/
theorem notFound_noop (st : List Todo) (id : String)
    (h : ∀ t ∈ st, t.id ≠ id) :
    toggleTodo st id true =
      { todos := st, savedArg := some st, ret := Except.ok (getSortedTodos st) } ∧
    deleteTodo st id true =
      { todos := st, savedArg := some st, ret := Except.ok (getSortedTodos st) } := by
  have hmap : (st.map fun t =>
      if t.id = id then { t with completed := !t.completed } else t) = st := by
    have hcg : (st.map fun t =>
        if t.id = id then { t with completed := !t.completed } else t) =
        st.map fun t => t :=
      List.map_congr_left (fun t ht => if_neg (h t ht))
    rw [hcg, List.map_id']
  have hfil : (st.filter fun t => t.id != id) = st :=
    List.filter_eq_self.2 (fun t ht => bne_iff_ne.2 (h t ht))
  constructor
  · simp [toggleTodo, save, hmap]
  · simp [deleteTodo, save, hfil]

/-- C3 witness: toggling and deleting the absent id "missing" on a
one-element collection. -/
theorem notFound_noop_witness :
    (∀ t ∈ [sampleDone], t.id ≠ "missing") ∧
    toggleTodo [sampleDone] "missing" true =
      { todos := [sampleDone], savedArg := some [sampleDone]
        ret := Except.ok (getSortedTodos [sampleDone]) } ∧
    deleteTodo [sampleDone] "missing" true =
      { todos := [sampleDone], savedArg := some [sampleDone]
        ret := Except.ok (getSortedTodos [sampleDone]) } :=
  ⟨by decide, (notFound_noop [sampleDone] "missing" (by decide)).1,
    (notFound_noop [sampleDone] "missing" (by decide)).2⟩

/-- C4: for text that trims to empty, `addTodo` throws `ValidationError`,
the collection is unchanged, and `save` is never called. -/
theorem addTodo_validation (st : List Todo) (text newId : String) (now : Int)
    (saveOk : Bool) (h : jsTrim text = "") :
    addTodo st text newId now saveOk =
      { todos := st, savedArg := none, ret := Except.error StoreError.validation } := by
  simp [addTodo, h]

/-- C4 witness: adding whitespace-only text. -/
theorem addTodo_validation_witness :
    jsTrim " \t  " = "" ∧
    addTodo [sampleDone] " \t  " "z" 9 true =
      { todos := [sampleDone], savedArg := none
        ret := Except.error StoreError.validation } :=
  ⟨by decide, addTodo_validation [sampleDone] " \t  " "z" 9 true (by decide)⟩

/-- C6: when the `save` inside `addTodo` fails, the storage error propagates
to the caller, yet the in-memory collection still holds the new record —
the insert is not rolled back — so a subsequent read (`getSortedTodos`)
also shows it. -/
theorem addTodo_save_failure (st : List Todo) (text newId : String) (now : Int)
    (h : jsTrim text ≠ "") :
    (addTodo st text newId now false).ret = Except.error StoreError.quotaExceeded ∧
    (addTodo st text newId now false).todos = newRecord text newId now :: st ∧
    newRecord text newId now ∈ (addTodo st text newId now false).todos ∧
    newRecord text newId now ∈ getSortedTodos ((addTodo st text newId now false).todos) := by
  have hres : addTodo st text newId now false =
      { todos := newRecord text newId now :: st
        savedArg := some (newRecord text newId now :: st)
        ret := Except.error StoreError.quotaExceeded } := by
    simp [addTodo, h, save]
  refine ⟨by rw [hres], by rw [hres], ?_, ?_⟩
  · rw [hres]
    exact List.mem_cons_self _ _
  · rw [hres]
    exact (perm_getSortedTodos _).mem_iff.2 (List.mem_cons_self _ _)

/-- C6 witness: a failing save while adding "Walk dog". -/
theorem addTodo_save_failure_witness :
    jsTrim "Walk dog" ≠ "" ∧
    (addTodo [sampleDone] "Walk dog" "b" 2 false).ret =
      Except.error StoreError.quotaExceeded ∧
    newRecord "Walk dog" "b" 2 ∈ (addTodo [sampleDone] "Walk dog" "b" 2 false).todos :=
  ⟨by decide, (addTodo_save_failure [sampleDone] "Walk dog" "b" 2 (by decide)).1,
    (addTodo_save_failure [sampleDone] "Walk dog" "b" 2 (by decide)).2.2.1⟩

/-- C10: `toggleTodo` preserves the length and order of the collection, and for
the record at every position it preserves `id`, `text` and `createdAt`;
`completed` is negated exactly at positions whose record matches the given
id and kept otherwise — regardless of whether the save succeeds. -/
theorem toggleTodo_frame (st : List Todo) (id : String) (saveOk : Bool) :
    (toggleTodo st id saveOk).todos.length = st.length ∧
    ∀ i (hi : i < st.length) (hi' : i < (toggleTodo st id saveOk).todos.length),
      ((toggleTodo st id saveOk).todos.get ⟨i, hi'⟩).id = (st.get ⟨i, hi⟩).id ∧
      ((toggleTodo st id saveOk).todos.get ⟨i, hi'⟩).text = (st.get ⟨i, hi⟩).text ∧
      ((toggleTodo st id saveOk).todos.get ⟨i, hi'⟩).createdAt = (st.get ⟨i, hi⟩).createdAt ∧
      ((toggleTodo st id saveOk).todos.get ⟨i, hi'⟩).completed =
        (if (st.get ⟨i, hi⟩).id = id then !(st.get ⟨i, hi⟩).completed
         else (st.get ⟨i, hi⟩).completed) := by
  have htodos : (toggleTodo st id saveOk).todos =
      st.map fun t => if t.id = id then { t with completed := !t.completed } else t := by
    simp [toggleTodo]
  constructor
  · rw [htodos, List.length_map]
  · intro i hi hi'
    simp only [List.get_eq_getElem, htodos, List.getElem_map]
    by_cases hcase : st[i].id = id <;> simp [hcase]

/-- C10 witness: toggling id "a" in a two-element collection, inspected at
position 0. -/
theorem toggleTodo_frame_witness :
    (toggleTodo [sampleDone, samplePending] "a" true).todos.length =
      ([sampleDone, samplePending] : List Todo).length ∧
    ((toggleTodo [sampleDone, samplePending] "a" true).todos.get ⟨0, by decide⟩).id =
      (([sampleDone, samplePending] : List Todo).get ⟨0, by decide⟩).id ∧
    ((toggleTodo [sampleDone, samplePending] "a" true).todos.get ⟨0, by decide⟩).completed =
      (if (([sampleDone, samplePending] : List Todo).get ⟨0, by decide⟩).id = "a"
       then !(([sampleDone, samplePending] : List Todo).get ⟨0, by decide⟩).completed
       else (([sampleDone, samplePending] : List Todo).get ⟨0, by decide⟩).completed) :=
  ⟨(toggleTodo_frame [sampleDone, samplePending] "a" true).1,
    ((toggleTodo_frame [sampleDone, samplePending] "a" true).2 0 (by decide) (by decide)).1,
    ((toggleTodo_frame [sampleDone, samplePending] "a" true).2 0 (by decide) (by decide)).2.2.2⟩

/-- C5 counterexample: the stored value `"5"` is valid JSON that is not an
array; `load` returns the empty collection but does not log the corrupt-data
warning — the `console.warn` in the code sits only in the `catch` branch, so
the claim sentence "logs a recoverable warning" fails for this case. -/
theorem load_nonarray_silent_counterexample :
    jsonParse "5" = some (Json.num 5) ∧
    load (some "5") = { value := [], warned := false } :=
  ⟨rfl, rfl⟩

/-- C5 (amended): `load` is total (never throws). An absent key yields the
empty collection; a stored value that is not valid JSON is caught, yields
the empty collection and logs the recoverable warning; a stored value that
is valid JSON but not an array yields the empty collection silently; a
parsed array is returned as the collection. -/
theorem load_behavior :
    load none = { value := [], warned := false } ∧
    (∀ s, jsonParse s = none → load (some s) = { value := [], warned := true }) ∧
    (∀ s xs, jsonParse s = some (Json.arr xs) →
      load (some s) = { value := xs, warned := false }) ∧
    (∀ s v, jsonParse s = some v → (∀ xs, v ≠ Json.arr xs) →
      load (some s) = { value := [], warned := false }) := by
  refine ⟨rfl, ?_, ?_, ?_⟩
  · intro s hs
    simp [load, hs]
  · intro s xs hs
    simp [load, hs]
  · intro s v hs hv
    cases v with
    | arr xs => exact absurd rfl (hv xs)
    | null => simp [load, hs]
    | bool b => simp [load, hs]
    | num n => simp [load, hs]
    | str t => simp [load, hs]
    | obj fs => simp [load, hs]

/-- C5 witness: the scenario given in the spec, storage holding `"not json"`, and a
well-formed stored array. -/
theorem load_behavior_witness :
    jsonParse "not json" = none ∧
    load (some "not json") = { value := [], warned := true } ∧
    jsonParse "[1, 2]" = some (Json.arr [Json.num 1, Json.num 2]) ∧
    load (some "[1, 2]") = { value := [Json.num 1, Json.num 2], warned := false } :=
  ⟨rfl, load_behavior.2.1 "not json" rfl, rfl,
    load_behavior.2.2.1 "[1, 2]" [Json.num 1, Json.num 2] rfl⟩

/-- C8 counterexample: rendering the empty collection produces zero child
elements — `renderTodos` only clears the container and appends one node per
todo, so there is no placeholder/empty-state element at all. -/
theorem render_empty_counterexample :
    renderTodos [] = [] ∧ (renderTodos []).length = 0 :=
  ⟨rfl, rfl⟩

/-- C8 (amended): rendering the empty collection leaves the list empty (zero
items, no placeholder element); rendering a non-empty collection produces
exactly one element per record, in order, each carrying the id of the record on
its checkbox and on its delete button (with `data-action="delete"`), the
text of the record, and completion state on the checkbox and text class. -/
theorem renderTodos_spec (todos : List Todo) :
    (renderTodos todos).length = todos.length ∧
    (todos = [] → renderTodos todos = []) ∧
    ∀ i (hi : i < todos.length) (hi' : i < (renderTodos todos).length),
      ((renderTodos todos).get ⟨i, hi'⟩).checkboxDataId = (todos.get ⟨i, hi⟩).id ∧
      ((renderTodos todos).get ⟨i, hi'⟩).deleteDataId = (todos.get ⟨i, hi⟩).id ∧
      ((renderTodos todos).get ⟨i, hi'⟩).deleteDataAction = "delete" ∧
      ((renderTodos todos).get ⟨i, hi'⟩).textContent = (todos.get ⟨i, hi⟩).text ∧
      ((renderTodos todos).get ⟨i, hi'⟩).checkboxChecked = (todos.get ⟨i, hi⟩).completed ∧
      ((renderTodos todos).get ⟨i, hi'⟩).completedTextClass = (todos.get ⟨i, hi⟩).completed := by
  refine ⟨List.length_map todos buildTodoElement, ?_, ?_⟩
  · intro h
    rw [h]
    rfl
  · intro i hi hi'
    simp only [List.get_eq_getElem, renderTodos, List.getElem_map]
    exact ⟨rfl, rfl, rfl, rfl, rfl, rfl⟩

/-- C8 witness: rendering a one-element collection, inspected at
position 0. -/
theorem renderTodos_spec_witness :
    (renderTodos [sampleDone]).length = ([sampleDone] : List Todo).length ∧
    ((renderTodos [sampleDone]).get ⟨0, by decide⟩).checkboxDataId =
      (([sampleDone] : List Todo).get ⟨0, by decide⟩).id ∧
    ((renderTodos [sampleDone]).get ⟨0, by decide⟩).checkboxChecked =
      (([sampleDone] : List Todo).get ⟨0, by decide⟩).completed :=
  ⟨(renderTodos_spec [sampleDone]).1,
    ((renderTodos_spec [sampleDone]).2.2 0 (by decide) (by decide)).1,
    ((renderTodos_spec [sampleDone]).2.2 0 (by decide) (by decide)).2.2.2.2.1⟩

end TodoApp
